import Mathlib

/-!
Shallow embedding of `bibjson.py` from internaut/bibtex2bibjson.

The Python module converts decoded BibTeX entries (as produced by
bibtexparser) into BibJSON records and collections.  Dictionaries are
modelled as association lists in insertion order, dictionary assignment
as `odSet` (update in place if the key exists, append otherwise), and
calls to `logging.error` as values of the `Diag` type accumulated in a
list.  Dynamic dispatch `getattr(module, 'fill_record_%s' % type)` is
modelled by lookup in the finite table `fillTable` of the defined
`fill_record_*` functions.
-/

namespace Bibjson

/-- A field value of a decoded BibTeX entry: a plain string, or a list of
strings for fields (author, editor, keyword) the parser already split. -/
inductive EVal where
  | str : String → EVal
  | strs : List String → EVal
deriving DecidableEq

/-- A decoded BibTeX entry: its `ID` (citation key), its `ENTRYTYPE` tag and
the mapping from lowercase field names to values, in insertion order. -/
structure Entry where
  id : String
  entrytype : String
  fields : List (String × EVal)
deriving DecidableEq

/-- JSON-like values appearing in a BibJSON record or collection. -/
inductive JVal where
  | str : String → JVal
  | nat : Nat → JVal
  | arr : List JVal → JVal
  | obj : List (String × JVal) → JVal

/-- A BibJSON record: a string-keyed mapping in insertion order. -/
abbrev Record := List (String × JVal)

/-- Lookup in an association list (first binding wins, as in a dict). -/
def alookup {α : Type} : List (String × α) → String → Option α
  | [], _ => none
  | (k1, v) :: t, k => if k1 = k then some v else alookup t k

/-- Key membership in an association list (`k in d` in Python). -/
def hasKey {α : Type} : List (String × α) → String → Bool
  | [], _ => false
  | (k1, _) :: t, k => if k1 = k then true else hasKey t k

/-- Dictionary assignment `d[k] = v` on an association list: replace the
binding in place when the key exists, append the binding otherwise. -/
def odSet {α : Type} (l : List (String × α)) (k : String) (v : α) :
    List (String × α) :=
  if hasKey l k then l.map (fun p => if p.1 = k then (k, v) else p)
  else l ++ [(k, v)]

/-- Copying an entry value verbatim into a record. -/
def jOfE : EVal → JVal
  | .str s => .str s
  | .strs l => .arr (l.map JVal.str)

/-- One `logging.error` call made by the module: either the missing-keys
message of `_require_keys_in_entry` (carrying the entry id, the `req_all`
flag and the list of checked keys) or the unknown-type message of
`record_from_entry` (carrying the citation key and the type tag). -/
inductive Diag where
  | missingKeys (entryId : String) (reqAll : Bool) (keys : List String)
  | unknownType (key : String) (entrytype : String)
deriving DecidableEq

/-- `k in entry` for a field name. -/
def hasField (e : Entry) (k : String) : Bool := hasKey e.fields k

/-- `_require_keys_in_entry(entry, keys, req_all)`: require at least one or
all of `keys` in the entry; on violation emit one error diagnostic. -/
def _require_keys_in_entry (e : Entry) (keys : List String) (req_all : Bool) :
    List Diag :=
  let keys_in_entry := keys.map (fun k => hasField e k)
  if (req_all && !keys_in_entry.all id) || (!req_all && !keys_in_entry.any id)
  then [Diag.missingKeys e.id req_all keys]
  else []

/-- `_simple_fill(r, entry, keys)`: for each key in `keys` present in the
entry, assign its value to the record. -/
def _simple_fill (r : Record) (e : Entry) (keys : List String) : Record :=
  keys.foldl (fun acc k =>
    match alookup e.fields k with
    | some v => odSet acc k (jOfE v)
    | none => acc) r

/-- `_simple_fill_one_of(r, entry, keys)`: `_simple_fill` plus the
requirement that at least one of `keys` exists in the entry. -/
def _simple_fill_one_of (r : Record) (e : Entry) (keys : List String) :
    Record × List Diag :=
  (_simple_fill r e keys, _require_keys_in_entry e keys false)

/-- `_fill_named_entry(r, entry, k)`: `r[k] = [{'name': n} for n in entry[k]]`.
Iterating a Python string yields its characters, hence the `.str` case. -/
def _fill_named_entry (r : Record) (e : Entry) (k : String) : Record :=
  match alookup e.fields k with
  | some (.strs ns) =>
      odSet r k (.arr (ns.map fun n => .obj [("name", .str n)]))
  | some (.str s) =>
      odSet r k (.arr (s.data.map fun c => .obj [("name", .str (String.singleton c))]))
  | none => r

/-- `_fill_author(r, entry)`. -/
def _fill_author (r : Record) (e : Entry) : Record :=
  if hasField e "author" then _fill_named_entry r e "author" else r

/-- `_fill_editor(r, entry)`. -/
def _fill_editor (r : Record) (e : Entry) : Record :=
  if hasField e "editor" then _fill_named_entry r e "editor" else r

/-- `_fill_publisher(r, entry)`: a `name` sub-object, with the entry's
`address` added to it when present. -/
def _fill_publisher (r : Record) (e : Entry) : Record :=
  match alookup e.fields "publisher" with
  | none => r
  | some pv =>
      odSet r "publisher" (.obj
        ([("name", jOfE pv)] ++
          match alookup e.fields "address" with
          | some av => [("address", jOfE av)]
          | none => []))

/-- `_fill_journal(r, entry)`: only when both `journal` and `volume` are
present; the optional keys `number`, `pages`, `month` are then assigned
into the sub-object exactly as `_simple_fill` would. -/
def _fill_journal (r : Record) (e : Entry) : Record :=
  match alookup e.fields "journal", alookup e.fields "volume" with
  | some jv, some vv =>
      odSet r "journal" (.obj
        (_simple_fill [("name", jOfE jv), ("volume", jOfE vv)] e
          ["number", "pages", "month"]))
  | _, _ => r

/-- `fill_record_article`. -/
def fill_record_article (r : Record) (e : Entry) : Record × List Diag :=
  let ds := _require_keys_in_entry e ["title", "year", "author", "journal"] true
  let r1 := _simple_fill r e ["title", "year", "note", "key"]
  let r2 := _fill_author r1 e
  let r3 := _fill_journal r2 e
  (r3, ds)

/-- `fill_record_book`. -/
def fill_record_book (r : Record) (e : Entry) : Record × List Diag :=
  let d1 := _require_keys_in_entry e ["title", "year", "publisher"] true
  let d2 := _require_keys_in_entry e ["author", "editor"] false
  let r1 := _simple_fill r e
    ["title", "year", "note", "key", "volume", "number", "series", "edition", "month"]
  let r2 := _fill_author r1 e
  let r3 := _fill_editor r2 e
  let r4 := _fill_publisher r3 e
  (r4, d1 ++ d2)

/-- `fill_record_booklet`. -/
def fill_record_booklet (r : Record) (e : Entry) : Record × List Diag :=
  let ds := _require_keys_in_entry e ["title"] true
  let r1 := _simple_fill r e
    ["title", "howpublished", "address", "month", "year", "note", "key"]
  let r2 := _fill_author r1 e
  (r2, ds)

/-- `fill_record_inproceedings`. -/
def fill_record_inproceedings (r : Record) (e : Entry) : Record × List Diag :=
  let ds := _require_keys_in_entry e ["author", "title", "year", "booktitle"] true
  let r1 := _simple_fill r e
    ["title", "year", "booktitle", "note", "key", "volume", "number", "series",
     "organization", "pages", "address", "edition", "month"]
  let r2 := _fill_author r1 e
  let r3 := _fill_editor r2 e
  let r4 := _fill_publisher r3 e
  (r4, ds)

/-- `fill_record_conference`: delegates to the inproceedings rule. -/
def fill_record_conference (r : Record) (e : Entry) : Record × List Diag :=
  fill_record_inproceedings r e

/-- `fill_record_electronic`. -/
def fill_record_electronic (r : Record) (e : Entry) : Record × List Diag :=
  let ds := _require_keys_in_entry e ["author", "title", "howpublished"] true
  let r1 := _simple_fill r e
    ["title", "howpublished", "month", "year", "note", "key"]
  let r2 := _fill_author r1 e
  (r2, ds)

/-- `fill_record_inbook`. -/
def fill_record_inbook (r : Record) (e : Entry) : Record × List Diag :=
  let d1 := _require_keys_in_entry e ["author", "editor"] false
  let d2 := _require_keys_in_entry e ["title", "year", "publisher"] true
  let r1 := _simple_fill r e
    ["title", "year", "note", "key", "volume", "number", "series", "edition", "month"]
  let p := _simple_fill_one_of r1 e ["chapter", "pages"]
  let r2 := _fill_author p.1 e
  let r3 := _fill_editor r2 e
  let r4 := _fill_publisher r3 e
  (r4, d1 ++ d2 ++ p.2)

/-- `fill_record_incollection`. -/
def fill_record_incollection (r : Record) (e : Entry) : Record × List Diag :=
  let ds := _require_keys_in_entry e
    ["author", "publisher", "title", "year", "booktitle"] true
  let r1 := _simple_fill r e
    ["title", "year", "booktitle", "note", "key", "volume", "number", "series",
     "chapter", "pages", "address", "edition", "month"]
  let r2 := _fill_author r1 e
  let r3 := _fill_publisher r2 e
  let r4 := _fill_editor r3 e
  (r4, ds)

/-- `fill_record_manual`. -/
def fill_record_manual (r : Record) (e : Entry) : Record × List Diag :=
  let ds := _require_keys_in_entry e ["author", "title"] true
  let r1 := _simple_fill r e
    ["title", "address", "organization", "edition", "month", "year", "note", "key"]
  let r2 := _fill_author r1 e
  (r2, ds)

/-- `fill_record_phdthesis`. -/
def fill_record_phdthesis (r : Record) (e : Entry) : Record × List Diag :=
  let ds := _require_keys_in_entry e ["author", "title", "school", "year"] true
  let r1 := _simple_fill r e
    ["title", "school", "year", "address", "month", "note", "key"]
  let r2 := _fill_author r1 e
  (r2, ds)

/-- `fill_record_mastersthesis`: delegates to the phdthesis rule. -/
def fill_record_mastersthesis (r : Record) (e : Entry) : Record × List Diag :=
  fill_record_phdthesis r e

/-- `fill_record_misc`. -/
def fill_record_misc (r : Record) (e : Entry) : Record × List Diag :=
  let r1 := _simple_fill r e
    ["title", "howpublished", "month", "year", "note", "key"]
  let r2 := _fill_author r1 e
  (r2, [])

/-- `fill_record_periodical`. -/
def fill_record_periodical (r : Record) (e : Entry) : Record × List Diag :=
  let ds := _require_keys_in_entry e ["title", "year", "number"] true
  let r1 := _simple_fill r e
    ["title", "year", "number", "organization", "note", "key"]
  let r2 := _fill_author r1 e
  let r3 := _fill_publisher r2 e
  let r4 := _fill_journal r3 e
  (r4, ds)

/-- `fill_record_proceedings`. -/
def fill_record_proceedings (r : Record) (e : Entry) : Record × List Diag :=
  let ds := _require_keys_in_entry e ["title", "year"] true
  let r1 := _simple_fill r e
    ["title", "year", "volume", "number", "series", "address", "month",
     "organization", "note", "key"]
  let r2 := _fill_editor r1 e
  let r3 := _fill_publisher r2 e
  (r3, ds)

/-- `fill_record_techreport`. -/
def fill_record_techreport (r : Record) (e : Entry) : Record × List Diag :=
  let ds := _require_keys_in_entry e ["author", "title", "institution", "year"] true
  let r1 := _simple_fill r e
    ["title", "institution", "year", "number", "address", "month", "note", "key"]
  let r2 := _fill_author r1 e
  let r3 := _fill_editor r2 e
  (r3, ds)

/-- `fill_record_unpublished`.  The source writes the Python tuple
`('title', 'note' 'month', 'year', 'key')`, whose adjacent string literals
concatenate into the single field name `notemonth`; the concatenation is
kept verbatim here. -/
def fill_record_unpublished (r : Record) (e : Entry) : Record × List Diag :=
  let ds := _require_keys_in_entry e ["author", "title", "note"] true
  let r1 := _simple_fill r e ["title", "note" ++ "month", "year", "key"]
  let r2 := _fill_author r1 e
  (r2, ds)

/-- The type of a `fill_record_*` function. -/
abbrev FillFn := Record → Entry → Record × List Diag

/-- The finite table behind `getattr(module, 'fill_record_%s' % type)`:
exactly the `fill_record_*` functions the module defines. -/
def fillTable : List (String × FillFn) :=
  [("article", fill_record_article),
   ("book", fill_record_book),
   ("booklet", fill_record_booklet),
   ("conference", fill_record_conference),
   ("electronic", fill_record_electronic),
   ("inbook", fill_record_inbook),
   ("incollection", fill_record_incollection),
   ("inproceedings", fill_record_inproceedings),
   ("manual", fill_record_manual),
   ("mastersthesis", fill_record_mastersthesis),
   ("misc", fill_record_misc),
   ("periodical", fill_record_periodical),
   ("phdthesis", fill_record_phdthesis),
   ("proceedings", fill_record_proceedings),
   ("techreport", fill_record_techreport),
   ("unpublished", fill_record_unpublished)]

/-- Dynamic dispatch on the type tag. -/
def fillFor (t : String) : Option FillFn := alookup fillTable t

/-- The entry types for which a conversion function exists. -/
def knownEntryTypes : List String := fillTable.map Prod.fst

/-- `record_from_entry(key, entry, collection)`: the four identity fields,
then the type-specific fill, or an unknown-type diagnostic. -/
def record_from_entry (key : String) (e : Entry) (collection : JVal) :
    Record × List Diag :=
  let r : Record :=
    [("type", .str e.entrytype), ("id", .str key), ("citekey", .str key),
     ("collection", collection)]
  match fillFor e.entrytype with
  | some f => f r e
  | none => (r, [Diag.unknownType key e.entrytype])

/-- A BibJSON collection: metadata mapping plus the list of records. -/
structure Collection where
  metadata : List (String × JVal)
  records : List Record

/-- `collection_from_dict(entries, **kwargs)`: `none` models the
`AssertionError` raised when `collection` is absent from the kwargs;
otherwise the metadata copies every kwarg except `ignore_exceptions`,
each entry is mapped to a record in order, and `metadata['records']` is
set to the record count after all records are built. -/
def collection_from_dict (entries : List (String × Entry))
    (kwargs : List (String × JVal)) : Option (Collection × List Diag) :=
  if hasKey kwargs "collection" then
    let md := kwargs.foldl
      (fun m kv => if kv.1 = "ignore_exceptions" then m else odSet m kv.1 kv.2) []
    let coll := (alookup kwargs "collection").getD (.str "")
    let results := entries.map (fun ke => record_from_entry ke.1 ke.2 coll)
    let recs := results.map Prod.fst
    let ds := results.foldl (fun a p => a ++ p.2) []
    some (⟨odSet md "records" (.nat recs.length), recs⟩, ds)
  else none

/-! ## Specification-side definitions

These follow the wording of the specification (scalar copy rule, compound
field rules, per-type precondition table) and are compared with the
embedded code above. -/

/-- Spec scalar-copy rule: for each listed field name, if present in the
source entry, copy verbatim under the same key; absent fields omitted. -/
def specScalarCopy (e : Entry) (keys : List String) : Record :=
  keys.filterMap (fun k => (alookup e.fields k).map (fun v => (k, jOfE v)))

/-- Spec journal sub-object: `name` and `volume`, then `number`, `pages`,
`month` for exactly those of these fields present in the entry. -/
def specJournalObj (e : Entry) (jv vv : EVal) : JVal :=
  .obj ([("name", jOfE jv), ("volume", jOfE vv)] ++
    specScalarCopy e ["number", "pages", "month"])

/-- The per-type precondition table of the spec: each rule is a field list
together with `true` for "all required" or `false` for "at least one". -/
def specRules : String → List (List String × Bool)
  | "article" => [(["title", "year", "author", "journal"], true)]
  | "book" => [(["title", "year", "publisher"], true), (["author", "editor"], false)]
  | "booklet" => [(["title"], true)]
  | "conference" => [(["author", "title", "year", "booktitle"], true)]
  | "electronic" => [(["author", "title", "howpublished"], true)]
  | "inbook" => [(["author", "editor"], false), (["title", "year", "publisher"], true),
                 (["chapter", "pages"], false)]
  | "incollection" => [(["author", "publisher", "title", "year", "booktitle"], true)]
  | "inproceedings" => [(["author", "title", "year", "booktitle"], true)]
  | "manual" => [(["author", "title"], true)]
  | "mastersthesis" => [(["author", "title", "school", "year"], true)]
  | "misc" => []
  | "periodical" => [(["title", "year", "number"], true)]
  | "phdthesis" => [(["author", "title", "school", "year"], true)]
  | "proceedings" => [(["title", "year"], true)]
  | "techreport" => [(["author", "title", "institution", "year"], true)]
  | "unpublished" => [(["author", "title", "note"], true)]
  | _ => []

/-- A precondition rule is violated when a required-all rule has a missing
field, or a required-any rule has none of its fields present. -/
def specViolated (e : Entry) (ru : List String × Bool) : Bool :=
  if ru.2 then !(ru.1.all (fun k => hasField e k))
  else !(ru.1.any (fun k => hasField e k))

/-- The diagnostics the spec prescribes for an entry of a recognized type:
one per violated precondition rule, in rule order. -/
def specDiags (t : String) (e : Entry) : List Diag :=
  (specRules t).flatMap
    (fun ru => if specViolated e ru then [Diag.missingKeys e.id ru.2 ru.1] else [])

/-- The four identity fields every record starts with. -/
def idKeys : List String := ["type", "id", "citekey", "collection"]

/-! ## Association-list lemmas -/

lemma hasKey_eq_isSome {α : Type} (l : List (String × α)) (k : String) :
    hasKey l k = (alookup l k).isSome := by
  induction l with
  | nil => rfl
  | cons p t ih =>
    obtain ⟨k1, v⟩ := p
    simp only [hasKey, alookup]
    by_cases h : k1 = k <;> simp [h, ih]

lemma alookup_append_of_none {α : Type} {l1 : List (String × α)} {k : String}
    (l2 : List (String × α)) (h : alookup l1 k = none) :
    alookup (l1 ++ l2) k = alookup l2 k := by
  induction l1 with
  | nil => rfl
  | cons p t ih =>
    obtain ⟨k1, v⟩ := p
    simp only [alookup, List.cons_append] at h ⊢
    by_cases hk : k1 = k
    · simp [hk] at h
    · simp only [hk, if_false] at h ⊢
      exact ih h

lemma alookup_append_of_some {α : Type} {l1 : List (String × α)} {k : String}
    {v : α} (l2 : List (String × α)) (h : alookup l1 k = some v) :
    alookup (l1 ++ l2) k = some v := by
  induction l1 with
  | nil => simp [alookup] at h
  | cons p t ih =>
    obtain ⟨k1, v1⟩ := p
    simp only [alookup, List.cons_append] at h ⊢
    by_cases hk : k1 = k
    · simpa [hk] using h
    · simp only [hk, if_false] at h ⊢
      exact ih h

lemma alookup_map_update_self {α : Type} {l : List (String × α)} {k : String}
    (v : α) (h : hasKey l k = true) :
    alookup (l.map (fun p => if p.1 = k then (k, v) else p)) k = some v := by
  induction l with
  | nil => simp [hasKey] at h
  | cons p t ih =>
    obtain ⟨k1, v1⟩ := p
    simp only [hasKey] at h
    simp only [List.map_cons]
    split
    · simp [alookup]
    · next hc =>
        have hk : ¬ k1 = k := hc
        simp only [hk, if_false] at h
        simp [alookup, hk, ih h]

lemma alookup_map_update_ne {α : Type} {l : List (String × α)} {k k2 : String}
    (v : α) (h : k2 ≠ k) :
    alookup (l.map (fun p => if p.1 = k then (k, v) else p)) k2 = alookup l k2 := by
  induction l with
  | nil => rfl
  | cons p t ih =>
    obtain ⟨k1, v1⟩ := p
    simp only [List.map_cons]
    split
    · next hc =>
        have hk : k1 = k := hc
        simp [alookup, Ne.symm h, hk, ih]
    · next hc =>
        have hk : ¬ k1 = k := hc
        simp [alookup, ih]

lemma alookup_odSet_self {α : Type} (l : List (String × α)) (k : String) (v : α) :
    alookup (odSet l k v) k = some v := by
  unfold odSet
  by_cases h : hasKey l k
  · rw [if_pos h]
    exact alookup_map_update_self v h
  · rw [if_neg h]
    have hn : alookup l k = none := by
      cases hl : alookup l k with
      | none => rfl
      | some w => exact absurd (by rw [hasKey_eq_isSome, hl]; rfl) h
    rw [alookup_append_of_none _ hn]
    simp [alookup]

lemma alookup_odSet_ne {α : Type} {l : List (String × α)} {k k2 : String}
    {v : α} (h : k2 ≠ k) :
    alookup (odSet l k v) k2 = alookup l k2 := by
  unfold odSet
  by_cases hh : hasKey l k
  · rw [if_pos hh]
    exact alookup_map_update_ne v h
  · rw [if_neg hh]
    cases hl : alookup l k2 with
    | some w => exact alookup_append_of_some _ hl
    | none =>
        rw [alookup_append_of_none _ hl]
        simp [alookup, Ne.symm h]

lemma hasKey_append {α : Type} (l1 l2 : List (String × α)) (k : String) :
    hasKey (l1 ++ l2) k = (hasKey l1 k || hasKey l2 k) := by
  induction l1 with
  | nil => rfl
  | cons p t ih =>
    obtain ⟨k1, v1⟩ := p
    by_cases hk : k1 = k <;> simp [hasKey, hk, ih]

lemma odSet_not_hasKey {α : Type} {l : List (String × α)} {k : String}
    (v : α) (h : hasKey l k = false) : odSet l k v = l ++ [(k, v)] := by
  unfold odSet
  rw [h]
  rfl

/-! ## Lemmas about `_simple_fill` -/

lemma simple_fill_cons (r : Record) (e : Entry) (k1 : String) (t : List String) :
    _simple_fill r e (k1 :: t) =
      _simple_fill
        (match alookup e.fields k1 with
         | some v => odSet r k1 (jOfE v)
         | none => r) e t := rfl

lemma alookup_simple_fill (e : Entry) :
    ∀ (keys : List String) (r : Record) (k : String),
      alookup (_simple_fill r e keys) k =
        if k ∈ keys ∧ (alookup e.fields k).isSome
        then (alookup e.fields k).map jOfE
        else alookup r k := by
  intro keys
  induction keys with
  | nil => intro r k; simp [_simple_fill]
  | cons k1 t ih =>
    intro r k
    rw [simple_fill_cons, ih]
    by_cases hk : k = k1
    · subst hk
      cases hv : alookup e.fields k <;>
        simp [hv, alookup_odSet_self]
    · cases hv : alookup e.fields k1 <;>
        simp [hv, alookup_odSet_ne hk, hk, List.mem_cons]

lemma specScalarCopy_cons (e : Entry) (k1 : String) (t : List String) :
    specScalarCopy e (k1 :: t) =
      (match alookup e.fields k1 with
       | some v => [(k1, jOfE v)]
       | none => []) ++ specScalarCopy e t := by
  cases hv : alookup e.fields k1 <;>
    simp [specScalarCopy, List.filterMap_cons, hv]

lemma simple_fill_eq_append (e : Entry) :
    ∀ (keys : List String) (r : Record), keys.Nodup →
      (∀ k ∈ keys, hasKey r k = false) →
      _simple_fill r e keys = r ++ specScalarCopy e keys := by
  intro keys
  induction keys with
  | nil => intro r _ _; simp [_simple_fill, specScalarCopy]
  | cons k1 t ih =>
    intro r hnd hr
    rw [simple_fill_cons, specScalarCopy_cons]
    cases hv : alookup e.fields k1 with
    | none =>
        simp only []
        rw [ih r (List.Nodup.of_cons hnd)
          (fun k hk => hr k (List.mem_cons_of_mem _ hk))]
        simp
    | some v =>
        simp only []
        rw [odSet_not_hasKey (jOfE v) (hr k1 (List.mem_cons_self k1 t))]
        rw [ih (r ++ [(k1, jOfE v)]) (List.Nodup.of_cons hnd)]
        · simp
        · intro k hk
          rw [hasKey_append]
          have hne : k1 ≠ k := by
            rintro rfl
            exact (List.nodup_cons.mp hnd).1 hk
          simp [hr k (List.mem_cons_of_mem _ hk), hasKey, hne]

lemma hasKey_specScalarCopy {e : Entry} {keys : List String} {k : String}
    (h : ¬ k ∈ keys) : hasKey (specScalarCopy e keys) k = false := by
  induction keys with
  | nil => rfl
  | cons k1 t ih =>
    rw [specScalarCopy_cons]
    rw [hasKey_append]
    have h1 : ¬ k ∈ t := fun hk => h (List.mem_cons_of_mem _ hk)
    have h2 : k1 ≠ k := by
      rintro rfl
      exact h (List.mem_cons_self _ _)
    cases hv : alookup e.fields k1 <;> simp [hasKey, h2, ih h1]

/-! ## Preservation lemmas for the compound fill helpers -/

lemma alookup_fill_named_ne {r : Record} {e : Entry} {k0 k : String}
    (h : k ≠ k0) : alookup (_fill_named_entry r e k0) k = alookup r k := by
  unfold _fill_named_entry
  cases alookup e.fields k0 with
  | none => rfl
  | some v => cases v <;> simp [alookup_odSet_ne h]

lemma alookup_fill_author_ne {r : Record} {e : Entry} {k : String}
    (h : k ≠ "author") : alookup (_fill_author r e) k = alookup r k := by
  unfold _fill_author
  split
  · exact alookup_fill_named_ne h
  · rfl

lemma alookup_fill_editor_ne {r : Record} {e : Entry} {k : String}
    (h : k ≠ "editor") : alookup (_fill_editor r e) k = alookup r k := by
  unfold _fill_editor
  split
  · exact alookup_fill_named_ne h
  · rfl

lemma alookup_fill_publisher_ne {r : Record} {e : Entry} {k : String}
    (h : k ≠ "publisher") : alookup (_fill_publisher r e) k = alookup r k := by
  unfold _fill_publisher
  cases alookup e.fields "publisher" with
  | none => rfl
  | some pv => simp [alookup_odSet_ne h]

lemma alookup_fill_journal_ne {r : Record} {e : Entry} {k : String}
    (h : k ≠ "journal") : alookup (_fill_journal r e) k = alookup r k := by
  unfold _fill_journal
  cases alookup e.fields "journal" with
  | none => rfl
  | some jv =>
      cases alookup e.fields "volume" with
      | none => rfl
      | some vv => simp [alookup_odSet_ne h]

lemma fill_journal_alookup_self (r : Record) (e : Entry) :
    alookup (_fill_journal r e) "journal" =
      match alookup e.fields "journal", alookup e.fields "volume" with
      | some jv, some vv => some (specJournalObj e jv vv)
      | _, _ => alookup r "journal" := by
  unfold _fill_journal
  cases hj : alookup e.fields "journal" with
  | none => rfl
  | some jv =>
      cases hv : alookup e.fields "volume" with
      | none => rfl
      | some vv =>
          rw [alookup_odSet_self,
            simple_fill_eq_append e ["number", "pages", "month"]
              [("name", jOfE jv), ("volume", jOfE vv)] (by decide)
              (by
                intro k hk
                simp only [List.mem_cons, List.not_mem_nil, or_false] at hk
                rcases hk with rfl | rfl | rfl <;> rfl)]
          rfl

/-! ## The concatenated field name of the unpublished rule -/

lemma note_month_concat : "note" ++ "month" = "notemonth" := rfl

/-! ## Diagnostics of the precondition checks -/

lemma all_map_id (l : List String) (f : String → Bool) :
    (l.map f).all id = l.all f := by
  induction l with
  | nil => rfl
  | cons a t ih => simp [List.all_cons, ih]

lemma any_map_id (l : List String) (f : String → Bool) :
    (l.map f).any id = l.any f := by
  induction l with
  | nil => rfl
  | cons a t ih => simp [List.any_cons, ih]

lemma require_eq (e : Entry) (keys : List String) (b : Bool) :
    _require_keys_in_entry e keys b =
      if specViolated e (keys, b) then [Diag.missingKeys e.id b keys] else [] := by
  unfold _require_keys_in_entry specViolated
  cases b <;> simp [all_map_id, any_map_id]

/-! ## Dispatch -/

lemma record_from_entry_eq_known {e : Entry} {f : FillFn}
    (h : fillFor e.entrytype = some f) (key : String) (coll : JVal) :
    record_from_entry key e coll =
      f [("type", .str e.entrytype), ("id", .str key), ("citekey", .str key),
         ("collection", coll)] e := by
  simp only [record_from_entry, h]

/-! ## Identity fields are preserved by every fill rule -/

lemma pres_article (r : Record) (e : Entry) :
    ∀ k ∈ idKeys, alookup (fill_record_article r e).1 k = alookup r k := by
  intro k hk
  simp only [idKeys, List.mem_cons, List.not_mem_nil, or_false] at hk
  rcases hk with rfl | rfl | rfl | rfl <;>
    simp [fill_record_article, alookup_fill_journal_ne, alookup_fill_author_ne,
      alookup_simple_fill]

lemma pres_book (r : Record) (e : Entry) :
    ∀ k ∈ idKeys, alookup (fill_record_book r e).1 k = alookup r k := by
  intro k hk
  simp only [idKeys, List.mem_cons, List.not_mem_nil, or_false] at hk
  rcases hk with rfl | rfl | rfl | rfl <;>
    simp [fill_record_book, alookup_fill_publisher_ne, alookup_fill_editor_ne,
      alookup_fill_author_ne, alookup_simple_fill]

lemma pres_booklet (r : Record) (e : Entry) :
    ∀ k ∈ idKeys, alookup (fill_record_booklet r e).1 k = alookup r k := by
  intro k hk
  simp only [idKeys, List.mem_cons, List.not_mem_nil, or_false] at hk
  rcases hk with rfl | rfl | rfl | rfl <;>
    simp [fill_record_booklet, alookup_fill_author_ne, alookup_simple_fill]

lemma pres_inproceedings (r : Record) (e : Entry) :
    ∀ k ∈ idKeys, alookup (fill_record_inproceedings r e).1 k = alookup r k := by
  intro k hk
  simp only [idKeys, List.mem_cons, List.not_mem_nil, or_false] at hk
  rcases hk with rfl | rfl | rfl | rfl <;>
    simp [fill_record_inproceedings, alookup_fill_publisher_ne,
      alookup_fill_editor_ne, alookup_fill_author_ne, alookup_simple_fill]

lemma pres_conference (r : Record) (e : Entry) :
    ∀ k ∈ idKeys, alookup (fill_record_conference r e).1 k = alookup r k :=
  pres_inproceedings r e

lemma pres_electronic (r : Record) (e : Entry) :
    ∀ k ∈ idKeys, alookup (fill_record_electronic r e).1 k = alookup r k := by
  intro k hk
  simp only [idKeys, List.mem_cons, List.not_mem_nil, or_false] at hk
  rcases hk with rfl | rfl | rfl | rfl <;>
    simp [fill_record_electronic, alookup_fill_author_ne, alookup_simple_fill]

lemma pres_inbook (r : Record) (e : Entry) :
    ∀ k ∈ idKeys, alookup (fill_record_inbook r e).1 k = alookup r k := by
  intro k hk
  simp only [idKeys, List.mem_cons, List.not_mem_nil, or_false] at hk
  rcases hk with rfl | rfl | rfl | rfl <;>
    simp [fill_record_inbook, _simple_fill_one_of, alookup_fill_publisher_ne,
      alookup_fill_editor_ne, alookup_fill_author_ne, alookup_simple_fill]

lemma pres_incollection (r : Record) (e : Entry) :
    ∀ k ∈ idKeys, alookup (fill_record_incollection r e).1 k = alookup r k := by
  intro k hk
  simp only [idKeys, List.mem_cons, List.not_mem_nil, or_false] at hk
  rcases hk with rfl | rfl | rfl | rfl <;>
    simp [fill_record_incollection, alookup_fill_publisher_ne,
      alookup_fill_editor_ne, alookup_fill_author_ne, alookup_simple_fill]

lemma pres_manual (r : Record) (e : Entry) :
    ∀ k ∈ idKeys, alookup (fill_record_manual r e).1 k = alookup r k := by
  intro k hk
  simp only [idKeys, List.mem_cons, List.not_mem_nil, or_false] at hk
  rcases hk with rfl | rfl | rfl | rfl <;>
    simp [fill_record_manual, alookup_fill_author_ne, alookup_simple_fill]

lemma pres_phdthesis (r : Record) (e : Entry) :
    ∀ k ∈ idKeys, alookup (fill_record_phdthesis r e).1 k = alookup r k := by
  intro k hk
  simp only [idKeys, List.mem_cons, List.not_mem_nil, or_false] at hk
  rcases hk with rfl | rfl | rfl | rfl <;>
    simp [fill_record_phdthesis, alookup_fill_author_ne, alookup_simple_fill]

lemma pres_mastersthesis (r : Record) (e : Entry) :
    ∀ k ∈ idKeys, alookup (fill_record_mastersthesis r e).1 k = alookup r k :=
  pres_phdthesis r e

lemma pres_misc (r : Record) (e : Entry) :
    ∀ k ∈ idKeys, alookup (fill_record_misc r e).1 k = alookup r k := by
  intro k hk
  simp only [idKeys, List.mem_cons, List.not_mem_nil, or_false] at hk
  rcases hk with rfl | rfl | rfl | rfl <;>
    simp [fill_record_misc, alookup_fill_author_ne, alookup_simple_fill]

lemma pres_periodical (r : Record) (e : Entry) :
    ∀ k ∈ idKeys, alookup (fill_record_periodical r e).1 k = alookup r k := by
  intro k hk
  simp only [idKeys, List.mem_cons, List.not_mem_nil, or_false] at hk
  rcases hk with rfl | rfl | rfl | rfl <;>
    simp [fill_record_periodical, alookup_fill_journal_ne,
      alookup_fill_publisher_ne, alookup_fill_author_ne, alookup_simple_fill]

lemma pres_proceedings (r : Record) (e : Entry) :
    ∀ k ∈ idKeys, alookup (fill_record_proceedings r e).1 k = alookup r k := by
  intro k hk
  simp only [idKeys, List.mem_cons, List.not_mem_nil, or_false] at hk
  rcases hk with rfl | rfl | rfl | rfl <;>
    simp [fill_record_proceedings, alookup_fill_publisher_ne,
      alookup_fill_editor_ne, alookup_simple_fill]

lemma pres_techreport (r : Record) (e : Entry) :
    ∀ k ∈ idKeys, alookup (fill_record_techreport r e).1 k = alookup r k := by
  intro k hk
  simp only [idKeys, List.mem_cons, List.not_mem_nil, or_false] at hk
  rcases hk with rfl | rfl | rfl | rfl <;>
    simp [fill_record_techreport, alookup_fill_editor_ne,
      alookup_fill_author_ne, alookup_simple_fill]

lemma pres_unpublished (r : Record) (e : Entry) :
    ∀ k ∈ idKeys, alookup (fill_record_unpublished r e).1 k = alookup r k := by
  intro k hk
  simp only [idKeys, List.mem_cons, List.not_mem_nil, or_false] at hk
  rcases hk with rfl | rfl | rfl | rfl <;>
    simp [fill_record_unpublished, note_month_concat, alookup_fill_author_ne,
      alookup_simple_fill]

lemma table_pres {t : String} {f : FillFn} (hf : (t, f) ∈ fillTable)
    {r : Record} {e : Entry} {k : String} (hk : k ∈ idKeys) :
    alookup (f r e).1 k = alookup r k := by
  simp only [fillTable, Prod.mk.injEq, List.mem_cons,
    List.not_mem_nil, or_false] at hf
  obtain ⟨-, rfl⟩ | hf := hf
  · exact pres_article r e k hk
  obtain ⟨-, rfl⟩ | hf := hf
  · exact pres_book r e k hk
  obtain ⟨-, rfl⟩ | hf := hf
  · exact pres_booklet r e k hk
  obtain ⟨-, rfl⟩ | hf := hf
  · exact pres_conference r e k hk
  obtain ⟨-, rfl⟩ | hf := hf
  · exact pres_electronic r e k hk
  obtain ⟨-, rfl⟩ | hf := hf
  · exact pres_inbook r e k hk
  obtain ⟨-, rfl⟩ | hf := hf
  · exact pres_incollection r e k hk
  obtain ⟨-, rfl⟩ | hf := hf
  · exact pres_inproceedings r e k hk
  obtain ⟨-, rfl⟩ | hf := hf
  · exact pres_manual r e k hk
  obtain ⟨-, rfl⟩ | hf := hf
  · exact pres_mastersthesis r e k hk
  obtain ⟨-, rfl⟩ | hf := hf
  · exact pres_misc r e k hk
  obtain ⟨-, rfl⟩ | hf := hf
  · exact pres_periodical r e k hk
  obtain ⟨-, rfl⟩ | hf := hf
  · exact pres_phdthesis r e k hk
  obtain ⟨-, rfl⟩ | hf := hf
  · exact pres_proceedings r e k hk
  obtain ⟨-, rfl⟩ | hf := hf
  · exact pres_techreport r e k hk
  obtain ⟨-, rfl⟩ := hf
  exact pres_unpublished r e k hk

lemma alookup_mem {α : Type} {l : List (String × α)} {k : String} {v : α}
    (h : alookup l k = some v) : (k, v) ∈ l := by
  induction l with
  | nil => simp [alookup] at h
  | cons p t ih =>
    obtain ⟨k1, v1⟩ := p
    simp only [alookup] at h
    by_cases hk : k1 = k
    · rw [if_pos hk] at h
      subst hk
      injection h with h
      subst h
      exact List.mem_cons_self _ _
    · rw [if_neg hk] at h
      exact List.mem_cons_of_mem _ (ih h)

/-! ## Claim theorems -/

/-- Claim C10: for every decoded entry, citation key and collection value,
regardless of whether the type tag is recognized and which fields the entry
contains, the record produced by `record_from_entry` binds `type` to the
entry's type tag, `id` and `citekey` both to the citation key, and
`collection` to the collection argument; no per-type fill rule rebinds or
removes any of these four keys. -/
theorem c10_identity_fields (key : String) (e : Entry) (coll : JVal) :
    alookup (record_from_entry key e coll).1 "type" = some (.str e.entrytype) ∧
    alookup (record_from_entry key e coll).1 "id" = some (.str key) ∧
    alookup (record_from_entry key e coll).1 "citekey" = some (.str key) ∧
    alookup (record_from_entry key e coll).1 "collection" = some coll := by
  cases hf : fillFor e.entrytype with
  | none =>
      refine ⟨?_, ?_, ?_, ?_⟩ <;> simp [record_from_entry, hf, alookup]
  | some f =>
      have hmem : (e.entrytype, f) ∈ fillTable := alookup_mem hf
      rw [record_from_entry_eq_known hf key coll]
      refine ⟨?_, ?_, ?_, ?_⟩ <;>
        · rw [table_pres hmem (by decide)]
          simp [alookup]

/-- Claim C4: for any decoded entry whose type tag has no conversion
function, the mapper emits a record containing only the four identity
fields together with one diagnostic naming the citation key and the
unknown type; and processing does not abort: the collection builder still
produces one record per input entry. -/
theorem c4_unknown_type (key : String) (e : Entry) (coll : JVal)
    (h : fillFor e.entrytype = none) :
    record_from_entry key e coll =
      ([("type", .str e.entrytype), ("id", .str key), ("citekey", .str key),
        ("collection", coll)], [Diag.unknownType key e.entrytype]) ∧
    ∀ entries kwargs c ds, collection_from_dict entries kwargs = some (c, ds) →
      c.records.length = entries.length := by
  constructor
  · simp only [record_from_entry, h]
  · intro entries kwargs c ds hc
    simp only [collection_from_dict] at hc
    split at hc
    · injection hc with h1
      injection h1 with h2 h3
      subst h2
      simp
    · exact absurd hc (by simp)

/-- Witness for C4 at the unknown type tag `foobar` with key `x1`. -/
theorem c4_unknown_type_witness :
    record_from_entry "x1" ⟨"x1", "foobar", []⟩ (JVal.str "c") =
      ([("type", .str "foobar"), ("id", .str "x1"), ("citekey", .str "x1"),
        ("collection", .str "c")], [Diag.unknownType "x1" "foobar"]) :=
  (c4_unknown_type "x1" ⟨"x1", "foobar", []⟩ (JVal.str "c") rfl).1

/-- Claim C5: collection construction fails (the assertion on the kwargs)
exactly when the metadata kwargs lack the key `collection`; when
`collection` is present construction never hard-fails. -/
theorem c5_collection_required (entries : List (String × Entry))
    (kwargs : List (String × JVal)) :
    collection_from_dict entries kwargs = none ↔
      hasKey kwargs "collection" = false := by
  unfold collection_from_dict
  split
  · next h => simp [h]
  · next h =>
      simp only [Bool.not_eq_true] at h
      simp [h]

/-- Claim C3: every constructed collection has `metadata.records` equal to
the length of its records list, for every metadata kwargs set, including
kwargs that themselves supply a `records` key. -/
theorem c3_records_count (entries : List (String × Entry))
    (kwargs : List (String × JVal)) (c : Collection) (ds : List Diag)
    (h : collection_from_dict entries kwargs = some (c, ds)) :
    alookup c.metadata "records" = some (.nat c.records.length) := by
  simp only [collection_from_dict] at h
  split at h
  · injection h with h1
    injection h1 with h2 h3
    subst h2
    simp [alookup_odSet_self]
  · exact absurd h (by simp)

/-- Input for the C3 witness: the kwargs deliberately supply a bogus
`records` value, which the builder overwrites with its own count. -/
def c3pair : Collection × List Diag :=
  (collection_from_dict [("k1", ⟨"k1", "misc", [("title", .str "T")]⟩)]
    [("collection", .str "mycoll"), ("records", .str "bogus")]).getD (⟨[], []⟩, [])

/-- Witness for C3 on a one-entry collection with a caller-supplied
`records` kwarg. -/
theorem c3_records_count_witness :
    alookup c3pair.1.metadata "records" = some (.nat c3pair.1.records.length) :=
  c3_records_count [("k1", ⟨"k1", "misc", [("title", .str "T")]⟩)]
    [("collection", .str "mycoll"), ("records", .str "bogus")]
    c3pair.1 c3pair.2 rfl

/-- Counterexample to C2 as stated: the `book` entry with key `k1` and no
fields has a recognized type and is missing the required field `title`,
yet the mapper emits two diagnostics (one per violated precondition rule
of the book type), not exactly one. -/
theorem c2_counterexample :
    (fillFor "book").isSome = true ∧
    hasField ⟨"k1", "book", []⟩ "title" = false ∧
    (record_from_entry "k1" ⟨"k1", "book", []⟩ (JVal.str "c")).2 =
      [Diag.missingKeys "k1" true ["title", "year", "publisher"],
       Diag.missingKeys "k1" false ["author", "editor"]] ∧
    ((record_from_entry "k1" ⟨"k1", "book", []⟩ (JVal.str "c")).2.length = 1 →
      False) :=
  ⟨rfl, rfl, rfl, by decide⟩

/-- Claim C2 (amended): for any decoded entry of a recognized type the
mapper still returns a record carrying the identity fields (it never
raises), and one error diagnostic is emitted per violated precondition
rule of that type — so an entry violating exactly one rule gets exactly
one diagnostic, while an entry violating several rules gets one per rule;
each diagnostic carries the entry key and the all/at-least-one flag and
field list of its rule. -/
theorem c2_diags_per_rule (key : String) (coll : JVal) (e : Entry)
    (h : e.entrytype ∈ knownEntryTypes) :
    (record_from_entry key e coll).2 = specDiags e.entrytype e ∧
    alookup (record_from_entry key e coll).1 "citekey" = some (.str key) := by
  simp only [knownEntryTypes, fillTable, List.map_cons, List.map_nil,
    List.mem_cons, List.not_mem_nil, or_false] at h
  rcases h with he | he | he | he | he | he | he | he | he | he | he | he |
    he | he | he | he
  · have hf : fillFor e.entrytype = some fill_record_article := by rw [he]; rfl
    rw [record_from_entry_eq_known hf key coll]
    refine ⟨?_, ?_⟩
    · rw [he]
      simp [fill_record_article, specDiags, specRules, require_eq]
    · rw [table_pres (alookup_mem hf) (by decide)]
      rfl
  · have hf : fillFor e.entrytype = some fill_record_book := by rw [he]; rfl
    rw [record_from_entry_eq_known hf key coll]
    refine ⟨?_, ?_⟩
    · rw [he]
      simp [fill_record_book, specDiags, specRules, require_eq]
    · rw [table_pres (alookup_mem hf) (by decide)]
      rfl
  · have hf : fillFor e.entrytype = some fill_record_booklet := by rw [he]; rfl
    rw [record_from_entry_eq_known hf key coll]
    refine ⟨?_, ?_⟩
    · rw [he]
      simp [fill_record_booklet, specDiags, specRules, require_eq]
    · rw [table_pres (alookup_mem hf) (by decide)]
      rfl
  · have hf : fillFor e.entrytype = some fill_record_conference := by rw [he]; rfl
    rw [record_from_entry_eq_known hf key coll]
    refine ⟨?_, ?_⟩
    · rw [he]
      simp [fill_record_conference, fill_record_inproceedings, specDiags,
        specRules, require_eq]
    · rw [table_pres (alookup_mem hf) (by decide)]
      rfl
  · have hf : fillFor e.entrytype = some fill_record_electronic := by rw [he]; rfl
    rw [record_from_entry_eq_known hf key coll]
    refine ⟨?_, ?_⟩
    · rw [he]
      simp [fill_record_electronic, specDiags, specRules, require_eq]
    · rw [table_pres (alookup_mem hf) (by decide)]
      rfl
  · have hf : fillFor e.entrytype = some fill_record_inbook := by rw [he]; rfl
    rw [record_from_entry_eq_known hf key coll]
    refine ⟨?_, ?_⟩
    · rw [he]
      simp [fill_record_inbook, _simple_fill_one_of, specDiags, specRules,
        require_eq]
    · rw [table_pres (alookup_mem hf) (by decide)]
      rfl
  · have hf : fillFor e.entrytype = some fill_record_incollection := by
      rw [he]; rfl
    rw [record_from_entry_eq_known hf key coll]
    refine ⟨?_, ?_⟩
    · rw [he]
      simp [fill_record_incollection, specDiags, specRules, require_eq]
    · rw [table_pres (alookup_mem hf) (by decide)]
      rfl
  · have hf : fillFor e.entrytype = some fill_record_inproceedings := by
      rw [he]; rfl
    rw [record_from_entry_eq_known hf key coll]
    refine ⟨?_, ?_⟩
    · rw [he]
      simp [fill_record_inproceedings, specDiags, specRules, require_eq]
    · rw [table_pres (alookup_mem hf) (by decide)]
      rfl
  · have hf : fillFor e.entrytype = some fill_record_manual := by rw [he]; rfl
    rw [record_from_entry_eq_known hf key coll]
    refine ⟨?_, ?_⟩
    · rw [he]
      simp [fill_record_manual, specDiags, specRules, require_eq]
    · rw [table_pres (alookup_mem hf) (by decide)]
      rfl
  · have hf : fillFor e.entrytype = some fill_record_mastersthesis := by
      rw [he]; rfl
    rw [record_from_entry_eq_known hf key coll]
    refine ⟨?_, ?_⟩
    · rw [he]
      simp [fill_record_mastersthesis, fill_record_phdthesis, specDiags,
        specRules, require_eq]
    · rw [table_pres (alookup_mem hf) (by decide)]
      rfl
  · have hf : fillFor e.entrytype = some fill_record_misc := by rw [he]; rfl
    rw [record_from_entry_eq_known hf key coll]
    refine ⟨?_, ?_⟩
    · rw [he]
      simp [fill_record_misc, specDiags, specRules]
    · rw [table_pres (alookup_mem hf) (by decide)]
      rfl
  · have hf : fillFor e.entrytype = some fill_record_periodical := by
      rw [he]; rfl
    rw [record_from_entry_eq_known hf key coll]
    refine ⟨?_, ?_⟩
    · rw [he]
      simp [fill_record_periodical, specDiags, specRules, require_eq]
    · rw [table_pres (alookup_mem hf) (by decide)]
      rfl
  · have hf : fillFor e.entrytype = some fill_record_phdthesis := by
      rw [he]; rfl
    rw [record_from_entry_eq_known hf key coll]
    refine ⟨?_, ?_⟩
    · rw [he]
      simp [fill_record_phdthesis, specDiags, specRules, require_eq]
    · rw [table_pres (alookup_mem hf) (by decide)]
      rfl
  · have hf : fillFor e.entrytype = some fill_record_proceedings := by
      rw [he]; rfl
    rw [record_from_entry_eq_known hf key coll]
    refine ⟨?_, ?_⟩
    · rw [he]
      simp [fill_record_proceedings, specDiags, specRules, require_eq]
    · rw [table_pres (alookup_mem hf) (by decide)]
      rfl
  · have hf : fillFor e.entrytype = some fill_record_techreport := by
      rw [he]; rfl
    rw [record_from_entry_eq_known hf key coll]
    refine ⟨?_, ?_⟩
    · rw [he]
      simp [fill_record_techreport, specDiags, specRules, require_eq]
    · rw [table_pres (alookup_mem hf) (by decide)]
      rfl
  · have hf : fillFor e.entrytype = some fill_record_unpublished := by
      rw [he]; rfl
    rw [record_from_entry_eq_known hf key coll]
    refine ⟨?_, ?_⟩
    · rw [he]
      simp [fill_record_unpublished, specDiags, specRules, require_eq]
    · rw [table_pres (alookup_mem hf) (by decide)]
      rfl

/-- Input for the C2 witness: a book entry whose only violated rule is the
all-required rule (title is missing). -/
def c2entry : Entry :=
  ⟨"k2", "book",
   [("author", .strs ["A. One"]), ("year", .str "2000"), ("publisher", .str "P")]⟩

/-- Witness for the amended C2: exactly one diagnostic, carrying the entry
key and the all-required flag of the violated rule. -/
theorem c2_diags_per_rule_witness :
    (record_from_entry "k2" c2entry (JVal.str "c")).2 =
      [Diag.missingKeys "k2" true ["title", "year", "publisher"]] ∧
    alookup (record_from_entry "k2" c2entry (JVal.str "c")).1 "citekey" =
      some (.str "k2") := by
  have h := c2_diags_per_rule "k2" (JVal.str "c") c2entry (by decide)
  exact ⟨h.1.trans (by rfl), h.2⟩

/-- Claim C6: for entries handled by a rule that applies the journal
compound rule (article, periodical), the record has a `journal` key iff
both `journal` and `volume` are present in the entry; when present the
sub-object carries `name` and `volume` plus exactly those of `number`,
`pages`, `month` present in the entry. -/
theorem c6_journal_iff (key : String) (coll : JVal) (e : Entry)
    (h : e.entrytype = "article" ∨ e.entrytype = "periodical") :
    alookup (record_from_entry key e coll).1 "journal" =
      (match alookup e.fields "journal", alookup e.fields "volume" with
       | some jv, some vv => some (specJournalObj e jv vv)
       | _, _ => none) := by
  rcases h with he | he
  · have hf : fillFor e.entrytype = some fill_record_article := by rw [he]; rfl
    rw [record_from_entry_eq_known hf key coll]
    simp only [fill_record_article]
    rw [fill_journal_alookup_self]
    cases hj : alookup e.fields "journal" with
    | none => simp [alookup_fill_author_ne, alookup_simple_fill, alookup]
    | some jv =>
        cases hv : alookup e.fields "volume" with
        | none => simp [alookup_fill_author_ne, alookup_simple_fill, alookup]
        | some vv => simp
  · have hf : fillFor e.entrytype = some fill_record_periodical := by
      rw [he]; rfl
    rw [record_from_entry_eq_known hf key coll]
    simp only [fill_record_periodical]
    rw [fill_journal_alookup_self]
    cases hj : alookup e.fields "journal" with
    | none =>
        simp [alookup_fill_publisher_ne, alookup_fill_author_ne,
          alookup_simple_fill, alookup]
    | some jv =>
        cases hv : alookup e.fields "volume" with
        | none =>
            simp [alookup_fill_publisher_ne, alookup_fill_author_ne,
              alookup_simple_fill, alookup]
        | some vv => simp

/-- Input for the C6 witness. -/
def c6entry : Entry :=
  ⟨"a1", "article",
   [("title", .str "T"), ("year", .str "2020"), ("author", .strs ["A. One"]),
    ("journal", .str "J"), ("volume", .str "3"), ("pages", .str "1-10")]⟩

/-- Witness for C6 on an article entry with journal, volume and pages. -/
theorem c6_journal_iff_witness :
    alookup (record_from_entry "a1" c6entry (JVal.str "c")).1 "journal" =
      some (.obj [("name", .str "J"), ("volume", .str "3"),
        ("pages", .str "1-10")]) :=
  (c6_journal_iff "a1" (JVal.str "c") c6entry (Or.inl rfl)).trans (by rfl)

/-- Claim C7: when an author or editor field is present as an ordered list
of name strings, the fill rule binds the key to the list of
`name`-objects in the same order; when the field is absent the record is
left unchanged, so the key stays omitted. -/
theorem c7_named_lists (r : Record) (e : Entry) (ns : List String) :
    (alookup e.fields "author" = some (.strs ns) →
      _fill_author r e =
        odSet r "author" (.arr (ns.map fun n => .obj [("name", .str n)]))) ∧
    (alookup e.fields "author" = none → _fill_author r e = r) ∧
    (alookup e.fields "editor" = some (.strs ns) →
      _fill_editor r e =
        odSet r "editor" (.arr (ns.map fun n => .obj [("name", .str n)]))) ∧
    (alookup e.fields "editor" = none → _fill_editor r e = r) := by
  refine ⟨?_, ?_, ?_, ?_⟩
  · intro h
    have hb : hasField e "author" = true := by
      rw [hasField, hasKey_eq_isSome, h]
      rfl
    simp [_fill_author, _fill_named_entry, hb, h]
  · intro h
    have hb : hasField e "author" = false := by
      rw [hasField, hasKey_eq_isSome, h]
      rfl
    simp [_fill_author, hb]
  · intro h
    have hb : hasField e "editor" = true := by
      rw [hasField, hasKey_eq_isSome, h]
      rfl
    simp [_fill_editor, _fill_named_entry, hb, h]
  · intro h
    have hb : hasField e "editor" = false := by
      rw [hasField, hasKey_eq_isSome, h]
      rfl
    simp [_fill_editor, hb]

/-- Input for the C7 witness: author present as a two-name list, editor
absent. -/
def c7entry : Entry := ⟨"w7", "misc", [("author", .strs ["A. One", "B. Two"])]⟩

/-- Witness for C7: the author list keeps its order, the absent editor key
is omitted. -/
theorem c7_named_lists_witness :
    _fill_author [] c7entry =
      [("author", .arr [.obj [("name", .str "A. One")],
        .obj [("name", .str "B. Two")]])] ∧
    _fill_editor [] c7entry = [] := by
  have h := c7_named_lists [] c7entry ["A. One", "B. Two"]
  exact ⟨(h.1 rfl).trans (by rfl), h.2.2.2 rfl⟩

/-- Claim C8: the publisher rule emits a `name` sub-object with the
entry's `address` nested inside exactly when present, and never touches
the top-level `address` key; for `incollection`, whose scalar list also
copies `address`, an entry with both fields ends up with the address both
top-level and nested, with equal values. -/
theorem c8_publisher (r : Record) (e : Entry) :
    (∀ pv, alookup e.fields "publisher" = some pv →
      _fill_publisher r e =
        odSet r "publisher"
          (.obj ([("name", jOfE pv)] ++ specScalarCopy e ["address"]))) ∧
    (alookup e.fields "publisher" = none → _fill_publisher r e = r) ∧
    (alookup (_fill_publisher r e) "address" = alookup r "address") ∧
    (∀ key coll pv av, e.entrytype = "incollection" →
      alookup e.fields "publisher" = some pv →
      alookup e.fields "address" = some av →
      alookup (record_from_entry key e coll).1 "address" = some (jOfE av) ∧
      alookup (record_from_entry key e coll).1 "publisher" =
        some (.obj [("name", jOfE pv), ("address", jOfE av)])) := by
  refine ⟨?_, ?_, ?_, ?_⟩
  · intro pv h
    cases ha : alookup e.fields "address" <;>
      simp [_fill_publisher, h, ha, specScalarCopy, List.filterMap_cons]
  · intro h
    simp [_fill_publisher, h]
  · cases hp : alookup e.fields "publisher" <;>
      simp [_fill_publisher, hp,
        alookup_odSet_ne (show ("address" : String) ≠ "publisher" by decide)]
  · intro key coll pv av he hp ha
    have hf : fillFor e.entrytype = some fill_record_incollection := by
      rw [he]; rfl
    rw [record_from_entry_eq_known hf key coll]
    simp only [fill_record_incollection]
    constructor
    · rw [alookup_fill_editor_ne (by decide),
        alookup_fill_publisher_ne (by decide),
        alookup_fill_author_ne (by decide), alookup_simple_fill]
      simp [ha]
    · rw [alookup_fill_editor_ne (by decide)]
      simp [_fill_publisher, hp, ha, alookup_odSet_self]

/-- Input for the C8 witness: an incollection entry with both publisher
and address. -/
def c8entry : Entry :=
  ⟨"i1", "incollection",
   [("author", .strs ["A. One"]), ("publisher", .str "P"), ("title", .str "T"),
    ("year", .str "2001"), ("booktitle", .str "B"), ("address", .str "NYC")]⟩

/-- Witness for C8: the address appears top-level and inside the publisher
sub-object with equal values. -/
theorem c8_publisher_witness :
    alookup (record_from_entry "i1" c8entry (JVal.str "c")).1 "address" =
      some (.str "NYC") ∧
    alookup (record_from_entry "i1" c8entry (JVal.str "c")).1 "publisher" =
      some (.obj [("name", .str "P"), ("address", .str "NYC")]) := by
  have h := (c8_publisher [] c8entry).2.2.2 "i1" (JVal.str "c")
    (.str "P") (.str "NYC") rfl rfl rfl
  exact ⟨h.1, h.2⟩

/-- Claim C9: the unpublished rule's scalar-copy list contains the single
concatenated field name `notemonth` instead of `note` and `month`; the
scalar-copy step therefore never binds `note` or `month` in the record,
and binds `notemonth` exactly when the entry has a field literally named
`notemonth`. -/
theorem c9_unpublished_notemonth (key : String) (coll : JVal) (e : Entry)
    (h : e.entrytype = "unpublished") :
    alookup (record_from_entry key e coll).1 "note" = none ∧
    alookup (record_from_entry key e coll).1 "month" = none ∧
    alookup (record_from_entry key e coll).1 "notemonth" =
      (alookup e.fields "notemonth").map jOfE := by
  have hf : fillFor e.entrytype = some fill_record_unpublished := by rw [h]; rfl
  rw [record_from_entry_eq_known hf key coll]
  simp only [fill_record_unpublished, note_month_concat]
  refine ⟨?_, ?_, ?_⟩
  · rw [alookup_fill_author_ne (by decide), alookup_simple_fill]
    simp [alookup]
  · rw [alookup_fill_author_ne (by decide), alookup_simple_fill]
    simp [alookup]
  · rw [alookup_fill_author_ne (by decide), alookup_simple_fill]
    cases hn : alookup e.fields "notemonth" <;> simp [alookup]

/-- Input for the C9 witness: an unpublished entry carrying note, month
and a literal notemonth field. -/
def c9entry : Entry :=
  ⟨"u1", "unpublished",
   [("author", .strs ["A. One"]), ("title", .str "T"), ("note", .str "N"),
    ("month", .str "May"), ("notemonth", .str "NM")]⟩

/-- Witness for C9: note and month are dropped, notemonth is copied. -/
theorem c9_unpublished_notemonth_witness :
    alookup (record_from_entry "u1" c9entry (JVal.str "c")).1 "note" = none ∧
    alookup (record_from_entry "u1" c9entry (JVal.str "c")).1 "month" = none ∧
    alookup (record_from_entry "u1" c9entry (JVal.str "c")).1 "notemonth" =
      some (.str "NM") := by
  have h := c9_unpublished_notemonth "u1" (JVal.str "c") c9entry rfl
  exact ⟨h.1, h.2.1, h.2.2.trans (by rfl)⟩

lemma fill_author_strs {r : Record} {e : Entry} {ns : List String}
    (h : alookup e.fields "author" = some (.strs ns))
    (hk : hasKey r "author" = false) :
    _fill_author r e =
      r ++ [("author", .arr (ns.map fun n => .obj [("name", .str n)]))] := by
  have hb : hasField e "author" = true := by
    rw [hasField, hasKey_eq_isSome, h]
    rfl
  rw [show _fill_author r e = _fill_named_entry r e "author" from by
    simp [_fill_author, hb]]
  simp only [_fill_named_entry, h]
  exact odSet_not_hasKey _ hk

lemma fill_journal_some {r : Record} {e : Entry} {jv vv : EVal}
    (hj : alookup e.fields "journal" = some jv)
    (hv : alookup e.fields "volume" = some vv)
    (hk : hasKey r "journal" = false) :
    _fill_journal r e = r ++ [("journal", specJournalObj e jv vv)] := by
  simp only [_fill_journal, hj, hv]
  rw [simple_fill_eq_append e ["number", "pages", "month"]
    [("name", jOfE jv), ("volume", jOfE vv)] (by decide)
    (by
      intro k hk2
      simp only [List.mem_cons, List.not_mem_nil, or_false] at hk2
      rcases hk2 with rfl | rfl | rfl <;> rfl)]
  exact odSet_not_hasKey _ hk

lemma fill_journal_none_vol {r : Record} {e : Entry}
    (hv : alookup e.fields "volume" = none) : _fill_journal r e = r := by
  simp only [_fill_journal, hv]
  cases alookup e.fields "journal" <;> rfl


lemma fill_author_absent {r : Record} {e : Entry}
    (h : alookup e.fields "author" = none) : _fill_author r e = r := by
  have hb : hasField e "author" = false := by
    rw [hasField, hasKey_eq_isSome, h]
    rfl
  simp [_fill_author, hb]

lemma fill_editor_strs {r : Record} {e : Entry} {ns : List String}
    (h : alookup e.fields "editor" = some (.strs ns))
    (hk : hasKey r "editor" = false) :
    _fill_editor r e =
      r ++ [("editor", .arr (ns.map fun n => .obj [("name", .str n)]))] := by
  have hb : hasField e "editor" = true := by
    rw [hasField, hasKey_eq_isSome, h]
    rfl
  rw [show _fill_editor r e = _fill_named_entry r e "editor" from by
    simp [_fill_editor, hb]]
  simp only [_fill_named_entry, h]
  exact odSet_not_hasKey _ hk

lemma fill_editor_absent {r : Record} {e : Entry}
    (h : alookup e.fields "editor" = none) : _fill_editor r e = r := by
  have hb : hasField e "editor" = false := by
    rw [hasField, hasKey_eq_isSome, h]
    rfl
  simp [_fill_editor, hb]

lemma fill_publisher_some {r : Record} {e : Entry} {pv : EVal}
    (hp : alookup e.fields "publisher" = some pv)
    (hk : hasKey r "publisher" = false) :
    _fill_publisher r e =
      r ++ [("publisher",
        .obj ([("name", jOfE pv)] ++ specScalarCopy e ["address"]))] := by
  have h1 : _fill_publisher r e = odSet r "publisher"
      (.obj ([("name", jOfE pv)] ++ specScalarCopy e ["address"])) := by
    cases ha : alookup e.fields "address" <;>
      simp [_fill_publisher, hp, ha, specScalarCopy, List.filterMap_cons]
  rw [h1]
  exact odSet_not_hasKey _ hk

lemma fill_publisher_absent {r : Record} {e : Entry}
    (h : alookup e.fields "publisher" = none) : _fill_publisher r e = r := by
  simp [_fill_publisher, h]

lemma fill_journal_none_j {r : Record} {e : Entry}
    (hj : alookup e.fields "journal" = none) : _fill_journal r e = r := by
  cases hv : alookup e.fields "volume" <;> simp [_fill_journal, hj, hv]

/-- The compound field rules of the spec. -/
inductive CRule where
  | author
  | editor
  | publisher
  | journal
deriving DecidableEq

/-- The record key a compound rule binds. -/
def cKey : CRule → String
  | .author => "author"
  | .editor => "editor"
  | .publisher => "publisher"
  | .journal => "journal"

/-- The fill helper of the module implementing a compound rule. -/
def cFill : CRule → Record → Entry → Record
  | .author => _fill_author
  | .editor => _fill_editor
  | .publisher => _fill_publisher
  | .journal => _fill_journal

/-- Applying a sequence of compound rules to a record, as the type-specific
fill functions do. -/
def applyCompounds (r : Record) (e : Entry) (cs : List CRule) : Record :=
  cs.foldl (fun acc c => cFill c acc e) r

/-- Spec compound sub-object for one rule: the author/editor named-entity
list when the field is present as a list of names, the publisher
sub-object with the optional address, the journal sub-object when journal
and volume are both present; otherwise nothing. -/
def specCompoundPart (e : Entry) : CRule → Record
  | .author =>
      match alookup e.fields "author" with
      | some (.strs ns) =>
          [("author", .arr (ns.map fun n => .obj [("name", .str n)]))]
      | _ => []
  | .editor =>
      match alookup e.fields "editor" with
      | some (.strs ns) =>
          [("editor", .arr (ns.map fun n => .obj [("name", .str n)]))]
      | _ => []
  | .publisher =>
      match alookup e.fields "publisher" with
      | some pv =>
          [("publisher",
            .obj ([("name", jOfE pv)] ++ specScalarCopy e ["address"]))]
      | none => []
  | .journal =>
      match alookup e.fields "journal", alookup e.fields "volume" with
      | some jv, some vv => [("journal", specJournalObj e jv vv)]
      | _, _ => []

/-- The spec's per-type field table: the scalar-copy list and the compound
rules of each recognized type, in the order its fill function applies
them (the inbook chapter/pages pair is copied after the main scalar list,
and the unpublished list carries the concatenated `notemonth` name). -/
def specTypeFields : String → List String × List CRule
  | "article" => (["title", "year", "note", "key"], [.author, .journal])
  | "book" =>
      (["title", "year", "note", "key", "volume", "number", "series",
        "edition", "month"], [.author, .editor, .publisher])
  | "booklet" =>
      (["title", "howpublished", "address", "month", "year", "note", "key"],
       [.author])
  | "conference" =>
      (["title", "year", "booktitle", "note", "key", "volume", "number",
        "series", "organization", "pages", "address", "edition", "month"],
       [.author, .editor, .publisher])
  | "electronic" =>
      (["title", "howpublished", "month", "year", "note", "key"], [.author])
  | "inbook" =>
      (["title", "year", "note", "key", "volume", "number", "series",
        "edition", "month", "chapter", "pages"],
       [.author, .editor, .publisher])
  | "incollection" =>
      (["title", "year", "booktitle", "note", "key", "volume", "number",
        "series", "chapter", "pages", "address", "edition", "month"],
       [.author, .publisher, .editor])
  | "inproceedings" =>
      (["title", "year", "booktitle", "note", "key", "volume", "number",
        "series", "organization", "pages", "address", "edition", "month"],
       [.author, .editor, .publisher])
  | "manual" =>
      (["title", "address", "organization", "edition", "month", "year",
        "note", "key"], [.author])
  | "mastersthesis" =>
      (["title", "school", "year", "address", "month", "note", "key"],
       [.author])
  | "misc" =>
      (["title", "howpublished", "month", "year", "note", "key"], [.author])
  | "periodical" =>
      (["title", "year", "number", "organization", "note", "key"],
       [.author, .publisher, .journal])
  | "phdthesis" =>
      (["title", "school", "year", "address", "month", "note", "key"],
       [.author])
  | "proceedings" =>
      (["title", "year", "volume", "number", "series", "address", "month",
        "organization", "note", "key"], [.editor, .publisher])
  | "techreport" =>
      (["title", "institution", "year", "number", "address", "month",
        "note", "key"], [.author, .editor])
  | "unpublished" => (["title", "notemonth", "year", "key"], [.author])
  | _ => ([], [])

/-- The record the spec prescribes for an entry of a recognized type: the
four identity fields, then every listed scalar field present in the entry
copied verbatim in list order, then each applicable compound sub-object in
rule order. -/
def specMappedRecord (key : String) (coll : JVal) (e : Entry) : Record :=
  [("type", .str e.entrytype), ("id", .str key), ("citekey", .str key),
   ("collection", coll)]
  ++ specScalarCopy e (specTypeFields e.entrytype).1
  ++ (specTypeFields e.entrytype).2.flatMap (specCompoundPart e)

lemma hasKey_idrecord {k et key : String} {coll : JVal} (h : ¬ k ∈ idKeys) :
    hasKey [("type", JVal.str et), ("id", JVal.str key),
      ("citekey", JVal.str key), ("collection", coll)] k = false := by
  simp only [idKeys, List.mem_cons, List.not_mem_nil, or_false, not_or] at h
  obtain ⟨h1, h2, h3, h4⟩ := h
  simp [hasKey, Ne.symm h1, Ne.symm h2, Ne.symm h3, Ne.symm h4]

lemma hasKey_specCompoundPart (e : Entry) (c : CRule) (k : String)
    (h : k ≠ cKey c) : hasKey (specCompoundPart e c) k = false := by
  cases c with
  | author =>
      have h2 : ¬ ("author" = k) := by simpa [cKey] using Ne.symm h
      cases ha : alookup e.fields "author" with
      | none => simp [specCompoundPart, ha, hasKey]
      | some v => cases v <;> simp [specCompoundPart, ha, hasKey, h2]
  | editor =>
      have h2 : ¬ ("editor" = k) := by simpa [cKey] using Ne.symm h
      cases ha : alookup e.fields "editor" with
      | none => simp [specCompoundPart, ha, hasKey]
      | some v => cases v <;> simp [specCompoundPart, ha, hasKey, h2]
  | publisher =>
      have h2 : ¬ ("publisher" = k) := by simpa [cKey] using Ne.symm h
      cases hp : alookup e.fields "publisher" with
      | none => simp [specCompoundPart, hp, hasKey]
      | some pv => simp [specCompoundPart, hp, hasKey, h2]
  | journal =>
      have h2 : ¬ ("journal" = k) := by simpa [cKey] using Ne.symm h
      cases hj : alookup e.fields "journal" with
      | none => simp [specCompoundPart, hj, hasKey]
      | some jv =>
          cases hv : alookup e.fields "volume" with
          | none => simp [specCompoundPart, hj, hv, hasKey]
          | some vv => simp [specCompoundPart, hj, hv, hasKey, h2]

lemma cFill_eq (e : Entry)
    (hau : ∀ v, alookup e.fields "author" = some v → ∃ ns, v = EVal.strs ns)
    (hed : ∀ v, alookup e.fields "editor" = some v → ∃ ns, v = EVal.strs ns)
    (c : CRule) (r : Record) (hk : hasKey r (cKey c) = false) :
    cFill c r e = r ++ specCompoundPart e c := by
  cases c with
  | author =>
      show _fill_author r e = r ++ specCompoundPart e CRule.author
      cases ha : alookup e.fields "author" with
      | none =>
          rw [fill_author_absent ha]
          simp [specCompoundPart, ha]
      | some v =>
          obtain ⟨ns, rfl⟩ := hau v ha
          rw [fill_author_strs ha hk]
          simp [specCompoundPart, ha]
  | editor =>
      show _fill_editor r e = r ++ specCompoundPart e CRule.editor
      cases ha : alookup e.fields "editor" with
      | none =>
          rw [fill_editor_absent ha]
          simp [specCompoundPart, ha]
      | some v =>
          obtain ⟨ns, rfl⟩ := hed v ha
          rw [fill_editor_strs ha hk]
          simp [specCompoundPart, ha]
  | publisher =>
      show _fill_publisher r e = r ++ specCompoundPart e CRule.publisher
      cases hp : alookup e.fields "publisher" with
      | none =>
          rw [fill_publisher_absent hp]
          simp [specCompoundPart, hp]
      | some pv =>
          rw [fill_publisher_some hp hk]
          simp [specCompoundPart, hp]
  | journal =>
      show _fill_journal r e = r ++ specCompoundPart e CRule.journal
      cases hj : alookup e.fields "journal" with
      | none =>
          rw [fill_journal_none_j hj]
          simp [specCompoundPart, hj]
      | some jv =>
          cases hv : alookup e.fields "volume" with
          | none =>
              rw [fill_journal_none_vol hv]
              simp [specCompoundPart, hj, hv]
          | some vv =>
              rw [fill_journal_some hj hv hk]
              simp [specCompoundPart, hj, hv]

lemma applyCompounds_cons (r : Record) (e : Entry) (c : CRule)
    (cs : List CRule) :
    applyCompounds r e (c :: cs) = applyCompounds (cFill c r e) e cs := rfl

lemma applyCompounds_eq (e : Entry)
    (hau : ∀ v, alookup e.fields "author" = some v → ∃ ns, v = EVal.strs ns)
    (hed : ∀ v, alookup e.fields "editor" = some v → ∃ ns, v = EVal.strs ns) :
    ∀ (cs : List CRule) (r : Record),
      List.Pairwise (fun a b => cKey a ≠ cKey b) cs →
      (∀ c ∈ cs, hasKey r (cKey c) = false) →
      applyCompounds r e cs = r ++ cs.flatMap (specCompoundPart e) := by
  intro cs
  induction cs with
  | nil => intro r _ _; simp [applyCompounds]
  | cons c cs ih =>
    intro r hpw hfresh
    have hf2 : ∀ c2 ∈ cs,
        hasKey (r ++ specCompoundPart e c) (cKey c2) = false := by
      intro c2 hc2
      rw [hasKey_append, hfresh c2 (List.mem_cons_of_mem _ hc2),
        hasKey_specCompoundPart e c _
          (Ne.symm ((List.pairwise_cons.mp hpw).1 c2 hc2))]
      rfl
    rw [applyCompounds_cons,
      cFill_eq e hau hed c r (hfresh c (List.mem_cons_self c cs)),
      ih _ (List.Pairwise.of_cons hpw) hf2]
    simp [List.flatMap_cons, List.append_assoc]

lemma simple_fill_append_keys (r : Record) (e : Entry) (l1 l2 : List String) :
    _simple_fill (_simple_fill r e l1) e l2 = _simple_fill r e (l1 ++ l2) := by
  simp [_simple_fill, List.foldl_append]

lemma apply_pipeline (key : String) (coll : JVal) (e : Entry)
    (hau : ∀ v, alookup e.fields "author" = some v → ∃ ns, v = EVal.strs ns)
    (hed : ∀ v, alookup e.fields "editor" = some v → ∃ ns, v = EVal.strs ns)
    (L : List String) (cs : List CRule)
    (hnd : L.Nodup)
    (hdisj : ∀ k ∈ L, ¬ k ∈ idKeys)
    (hpw : List.Pairwise (fun a b => cKey a ≠ cKey b) cs)
    (hcdisj : ∀ c ∈ cs, ¬ cKey c ∈ L)
    (hcid : ∀ c ∈ cs, ¬ cKey c ∈ idKeys) :
    applyCompounds
      (_simple_fill [("type", JVal.str e.entrytype), ("id", JVal.str key),
        ("citekey", JVal.str key), ("collection", coll)] e L) e cs =
      ([("type", JVal.str e.entrytype), ("id", JVal.str key),
        ("citekey", JVal.str key), ("collection", coll)] : Record)
        ++ specScalarCopy e L ++ cs.flatMap (specCompoundPart e) := by
  have hfresh : ∀ c ∈ cs, hasKey
      (([("type", JVal.str e.entrytype), ("id", JVal.str key),
         ("citekey", JVal.str key), ("collection", coll)] : Record)
        ++ specScalarCopy e L) (cKey c) = false := by
    intro c hc
    rw [hasKey_append, hasKey_specScalarCopy (hcdisj c hc),
      hasKey_idrecord (hcid c hc)]
    rfl
  rw [simple_fill_eq_append e L _ hnd (fun k hk => hasKey_idrecord (hdisj k hk)),
    applyCompounds_eq e hau hed cs _ hpw hfresh]

/-- Claim C1: for every decoded entry whose type tag is recognized and
whose required fields are all present (no precondition rule of its type is
violated; author and editor fields, when present, are name lists as the
Entry Normalizer guarantees), the mapper returns exactly the record the
spec prescribes — the four identity fields, each listed scalar field that
is present copied verbatim in list order (absent fields omitted), and each
applicable compound sub-object in rule order — and no diagnostic is
emitted. -/
theorem c1_mapped_record (key : String) (coll : JVal) (e : Entry)
    (hrec : e.entrytype ∈ knownEntryTypes)
    (hreq : ∀ ru ∈ specRules e.entrytype, specViolated e ru = false)
    (hau : ∀ v, alookup e.fields "author" = some v → ∃ ns, v = EVal.strs ns)
    (hed : ∀ v, alookup e.fields "editor" = some v → ∃ ns, v = EVal.strs ns) :
    record_from_entry key e coll = (specMappedRecord key coll e, []) := by
  simp only [knownEntryTypes, fillTable, List.map_cons, List.map_nil,
    List.mem_cons, List.not_mem_nil, or_false] at hrec
  rcases hrec with he | he | he | he | he | he | he | he | he | he | he | he |
    he | he | he | he
  · have hf : fillFor e.entrytype = some fill_record_article := by rw [he]; rfl
    rw [record_from_entry_eq_known hf key coll]
    simp only [fill_record_article]
    rw [Prod.mk.injEq]
    constructor
    · refine Eq.trans (apply_pipeline key coll e hau hed
        ["title", "year", "note", "key"] [CRule.author, CRule.journal]
        (by decide) (by decide) (by decide) (by decide) (by decide)) ?_
      simp [specMappedRecord, specTypeFields, he, List.append_assoc]
    · have h1 := hreq (["title", "year", "author", "journal"], true)
        (by rw [he]; decide)
      simp [require_eq, h1]
  · have hf : fillFor e.entrytype = some fill_record_book := by rw [he]; rfl
    rw [record_from_entry_eq_known hf key coll]
    simp only [fill_record_book]
    rw [Prod.mk.injEq]
    constructor
    · refine Eq.trans (apply_pipeline key coll e hau hed
        ["title", "year", "note", "key", "volume", "number", "series",
         "edition", "month"]
        [CRule.author, CRule.editor, CRule.publisher]
        (by decide) (by decide) (by decide) (by decide) (by decide)) ?_
      simp [specMappedRecord, specTypeFields, he, List.append_assoc]
    · have h1 := hreq (["title", "year", "publisher"], true) (by rw [he]; decide)
      have h2 := hreq (["author", "editor"], false) (by rw [he]; decide)
      simp [require_eq, h1, h2]
  · have hf : fillFor e.entrytype = some fill_record_booklet := by rw [he]; rfl
    rw [record_from_entry_eq_known hf key coll]
    simp only [fill_record_booklet]
    rw [Prod.mk.injEq]
    constructor
    · refine Eq.trans (apply_pipeline key coll e hau hed
        ["title", "howpublished", "address", "month", "year", "note", "key"]
        [CRule.author]
        (by decide) (by decide) (by decide) (by decide) (by decide)) ?_
      simp [specMappedRecord, specTypeFields, he, List.append_assoc]
    · have h1 := hreq (["title"], true) (by rw [he]; decide)
      simp [require_eq, h1]
  · have hf : fillFor e.entrytype = some fill_record_conference := by
      rw [he]; rfl
    rw [record_from_entry_eq_known hf key coll]
    simp only [fill_record_conference, fill_record_inproceedings]
    rw [Prod.mk.injEq]
    constructor
    · refine Eq.trans (apply_pipeline key coll e hau hed
        ["title", "year", "booktitle", "note", "key", "volume", "number",
         "series", "organization", "pages", "address", "edition", "month"]
        [CRule.author, CRule.editor, CRule.publisher]
        (by decide) (by decide) (by decide) (by decide) (by decide)) ?_
      simp [specMappedRecord, specTypeFields, he, List.append_assoc]
    · have h1 := hreq (["author", "title", "year", "booktitle"], true)
        (by rw [he]; decide)
      simp [require_eq, h1]
  · have hf : fillFor e.entrytype = some fill_record_electronic := by
      rw [he]; rfl
    rw [record_from_entry_eq_known hf key coll]
    simp only [fill_record_electronic]
    rw [Prod.mk.injEq]
    constructor
    · refine Eq.trans (apply_pipeline key coll e hau hed
        ["title", "howpublished", "month", "year", "note", "key"]
        [CRule.author]
        (by decide) (by decide) (by decide) (by decide) (by decide)) ?_
      simp [specMappedRecord, specTypeFields, he, List.append_assoc]
    · have h1 := hreq (["author", "title", "howpublished"], true)
        (by rw [he]; decide)
      simp [require_eq, h1]
  · have hf : fillFor e.entrytype = some fill_record_inbook := by rw [he]; rfl
    rw [record_from_entry_eq_known hf key coll]
    simp only [fill_record_inbook, _simple_fill_one_of]
    rw [Prod.mk.injEq]
    constructor
    · rw [simple_fill_append_keys]
      refine Eq.trans (apply_pipeline key coll e hau hed
        (["title", "year", "note", "key", "volume", "number", "series",
          "edition", "month"] ++ ["chapter", "pages"])
        [CRule.author, CRule.editor, CRule.publisher]
        (by decide) (by decide) (by decide) (by decide) (by decide)) ?_
      simp [specMappedRecord, specTypeFields, he, List.append_assoc]
    · have h1 := hreq (["author", "editor"], false) (by rw [he]; decide)
      have h2 := hreq (["title", "year", "publisher"], true) (by rw [he]; decide)
      have h3 := hreq (["chapter", "pages"], false) (by rw [he]; decide)
      simp [require_eq, h1, h2, h3]
  · have hf : fillFor e.entrytype = some fill_record_incollection := by
      rw [he]; rfl
    rw [record_from_entry_eq_known hf key coll]
    simp only [fill_record_incollection]
    rw [Prod.mk.injEq]
    constructor
    · refine Eq.trans (apply_pipeline key coll e hau hed
        ["title", "year", "booktitle", "note", "key", "volume", "number",
         "series", "chapter", "pages", "address", "edition", "month"]
        [CRule.author, CRule.publisher, CRule.editor]
        (by decide) (by decide) (by decide) (by decide) (by decide)) ?_
      simp [specMappedRecord, specTypeFields, he, List.append_assoc]
    · have h1 := hreq (["author", "publisher", "title", "year", "booktitle"],
        true) (by rw [he]; decide)
      simp [require_eq, h1]
  · have hf : fillFor e.entrytype = some fill_record_inproceedings := by
      rw [he]; rfl
    rw [record_from_entry_eq_known hf key coll]
    simp only [fill_record_inproceedings]
    rw [Prod.mk.injEq]
    constructor
    · refine Eq.trans (apply_pipeline key coll e hau hed
        ["title", "year", "booktitle", "note", "key", "volume", "number",
         "series", "organization", "pages", "address", "edition", "month"]
        [CRule.author, CRule.editor, CRule.publisher]
        (by decide) (by decide) (by decide) (by decide) (by decide)) ?_
      simp [specMappedRecord, specTypeFields, he, List.append_assoc]
    · have h1 := hreq (["author", "title", "year", "booktitle"], true)
        (by rw [he]; decide)
      simp [require_eq, h1]
  · have hf : fillFor e.entrytype = some fill_record_manual := by rw [he]; rfl
    rw [record_from_entry_eq_known hf key coll]
    simp only [fill_record_manual]
    rw [Prod.mk.injEq]
    constructor
    · refine Eq.trans (apply_pipeline key coll e hau hed
        ["title", "address", "organization", "edition", "month", "year",
         "note", "key"]
        [CRule.author]
        (by decide) (by decide) (by decide) (by decide) (by decide)) ?_
      simp [specMappedRecord, specTypeFields, he, List.append_assoc]
    · have h1 := hreq (["author", "title"], true) (by rw [he]; decide)
      simp [require_eq, h1]
  · have hf : fillFor e.entrytype = some fill_record_mastersthesis := by
      rw [he]; rfl
    rw [record_from_entry_eq_known hf key coll]
    simp only [fill_record_mastersthesis, fill_record_phdthesis]
    rw [Prod.mk.injEq]
    constructor
    · refine Eq.trans (apply_pipeline key coll e hau hed
        ["title", "school", "year", "address", "month", "note", "key"]
        [CRule.author]
        (by decide) (by decide) (by decide) (by decide) (by decide)) ?_
      simp [specMappedRecord, specTypeFields, he, List.append_assoc]
    · have h1 := hreq (["author", "title", "school", "year"], true)
        (by rw [he]; decide)
      simp [require_eq, h1]
  · have hf : fillFor e.entrytype = some fill_record_misc := by rw [he]; rfl
    rw [record_from_entry_eq_known hf key coll]
    simp only [fill_record_misc]
    rw [Prod.mk.injEq]
    constructor
    · refine Eq.trans (apply_pipeline key coll e hau hed
        ["title", "howpublished", "month", "year", "note", "key"]
        [CRule.author]
        (by decide) (by decide) (by decide) (by decide) (by decide)) ?_
      simp [specMappedRecord, specTypeFields, he, List.append_assoc]
    · rfl
  · have hf : fillFor e.entrytype = some fill_record_periodical := by
      rw [he]; rfl
    rw [record_from_entry_eq_known hf key coll]
    simp only [fill_record_periodical]
    rw [Prod.mk.injEq]
    constructor
    · refine Eq.trans (apply_pipeline key coll e hau hed
        ["title", "year", "number", "organization", "note", "key"]
        [CRule.author, CRule.publisher, CRule.journal]
        (by decide) (by decide) (by decide) (by decide) (by decide)) ?_
      simp [specMappedRecord, specTypeFields, he, List.append_assoc]
    · have h1 := hreq (["title", "year", "number"], true) (by rw [he]; decide)
      simp [require_eq, h1]
  · have hf : fillFor e.entrytype = some fill_record_phdthesis := by
      rw [he]; rfl
    rw [record_from_entry_eq_known hf key coll]
    simp only [fill_record_phdthesis]
    rw [Prod.mk.injEq]
    constructor
    · refine Eq.trans (apply_pipeline key coll e hau hed
        ["title", "school", "year", "address", "month", "note", "key"]
        [CRule.author]
        (by decide) (by decide) (by decide) (by decide) (by decide)) ?_
      simp [specMappedRecord, specTypeFields, he, List.append_assoc]
    · have h1 := hreq (["author", "title", "school", "year"], true)
        (by rw [he]; decide)
      simp [require_eq, h1]
  · have hf : fillFor e.entrytype = some fill_record_proceedings := by
      rw [he]; rfl
    rw [record_from_entry_eq_known hf key coll]
    simp only [fill_record_proceedings]
    rw [Prod.mk.injEq]
    constructor
    · refine Eq.trans (apply_pipeline key coll e hau hed
        ["title", "year", "volume", "number", "series", "address", "month",
         "organization", "note", "key"]
        [CRule.editor, CRule.publisher]
        (by decide) (by decide) (by decide) (by decide) (by decide)) ?_
      simp [specMappedRecord, specTypeFields, he, List.append_assoc]
    · have h1 := hreq (["title", "year"], true) (by rw [he]; decide)
      simp [require_eq, h1]
  · have hf : fillFor e.entrytype = some fill_record_techreport := by
      rw [he]; rfl
    rw [record_from_entry_eq_known hf key coll]
    simp only [fill_record_techreport]
    rw [Prod.mk.injEq]
    constructor
    · refine Eq.trans (apply_pipeline key coll e hau hed
        ["title", "institution", "year", "number", "address", "month",
         "note", "key"]
        [CRule.author, CRule.editor]
        (by decide) (by decide) (by decide) (by decide) (by decide)) ?_
      simp [specMappedRecord, specTypeFields, he, List.append_assoc]
    · have h1 := hreq (["author", "title", "institution", "year"], true)
        (by rw [he]; decide)
      simp [require_eq, h1]
  · have hf : fillFor e.entrytype = some fill_record_unpublished := by
      rw [he]; rfl
    rw [record_from_entry_eq_known hf key coll]
    simp only [fill_record_unpublished]
    rw [Prod.mk.injEq]
    constructor
    · refine Eq.trans (apply_pipeline key coll e hau hed
        ["title", "note" ++ "month", "year", "key"]
        [CRule.author]
        (by decide) (by decide) (by decide) (by decide) (by decide)) ?_
      simp [specMappedRecord, specTypeFields, he, note_month_concat,
        List.append_assoc]
    · have h1 := hreq (["author", "title", "note"], true) (by rw [he]; decide)
      simp [require_eq, h1]

/-- The article entry of the concrete scenario in the claim. -/
def c1entry : Entry :=
  ⟨"abc", "article",
   [("title", .str "T"), ("year", .str "2020"),
    ("author", .strs ["A. One", "B. Two"]), ("journal", .str "J"),
    ("volume", .str "3"), ("pages", .str "1-10")]⟩

/-- Witness for C1: the concrete article scenario of the claim, with every
hypothesis discharged and the record evaluated. -/
theorem c1_mapped_record_witness :
    record_from_entry "abc" c1entry (JVal.str "mycoll") =
      ([("type", .str "article"), ("id", .str "abc"), ("citekey", .str "abc"),
        ("collection", .str "mycoll"), ("title", .str "T"),
        ("year", .str "2020"),
        ("author", .arr [.obj [("name", .str "A. One")],
          .obj [("name", .str "B. Two")]]),
        ("journal", .obj [("name", .str "J"), ("volume", .str "3"),
          ("pages", .str "1-10")])], []) :=
  (c1_mapped_record "abc" (JVal.str "mycoll") c1entry (by decide) (by decide)
    (by
      intro v hv
      have h2 : some (EVal.strs ["A. One", "B. Two"]) = some v := hv
      injection h2 with h3
      exact ⟨["A. One", "B. Two"], h3.symm⟩)
    (by
      intro v hv
      exact Option.noConfusion (show (none : Option EVal) = some v from hv))).trans
    (by rfl)

end Bibjson
